import Mathlib

/-!
Shallow embedding of the charge-my-car solar appliance scheduler
(`src/scheduler.py`, `src/solar_calculator.py`, `src/weather.py`).

Conventions of the embedding:
* Python floats are modelled as rationals (`ℚ`); the solar-physics path,
  which uses transcendental functions, is modelled over the reals (`ℝ`).
* A `datetime` is modelled as a rational number of hours since midnight of
  January 1 of its year; `+ datetime.timedelta(hours=1)` is `+ 1`,
  `.hour` is `⌊t⌋ % 24`, and `timetuple().tm_yday` is `⌊t / 24⌋ + 1`.
* The Python dict `used_slots` is an association list with unique keys.
* Code that can raise (`IndexError` from the start-slot scan,
  `ZeroDivisionError` from `available_solar / power_rating`) is modelled
  in `Except Unit`.
-/

/-- Python `int()` applied to a float: truncation toward zero. -/
def pyInt (q : ℚ) : ℤ := if 0 ≤ q then ⌊q⌋ else ⌈q⌉

/-- The `.hour` field of a timestamp measured in rational hours. -/
def hourOf (t : ℚ) : ℤ := ⌊t⌋ % 24

/-- Priority enum from `scheduler.py` (`LOW = 1, MEDIUM = 2, HIGH = 3`). -/
inductive Priority where
  | LOW : Priority
  | MEDIUM : Priority
  | HIGH : Priority

deriving instance DecidableEq, Repr for Priority

/-- The `value` of a `Priority` member, as in the Python `Enum`. -/
def Priority.value : Priority → ℤ
  | .LOW => 1
  | .MEDIUM => 2
  | .HIGH => 3

/-- Appliance dataclass from `scheduler.py`. -/
structure Appliance where
  name : String
  power_rating : ℚ
  duration : ℚ
  flexibility : ℤ
  priority : Priority

deriving instance DecidableEq, Repr for Appliance

/-- ScheduleItem dataclass from `scheduler.py`. -/
structure ScheduleItem where
  appliance : Appliance
  start_time : ℚ
  end_time : ℚ
  solar_coverage : ℚ
  grid_usage : ℚ
  cost_savings : ℚ

deriving instance DecidableEq, Repr for ScheduleItem

/-- The `used_slots` dict: timestamp to committed kW, as an assoc list. -/
abbrev UsedSlots := List (ℚ × ℚ)

/-- Dict membership / lookup: first entry whose key equals `t`. -/
def lookupSlot : UsedSlots → ℚ → Option ℚ
  | [], _ => none
  | (k, v) :: rest, t => if k = t then some v else lookupSlot rest t

/-- `used_slots.get(t, 0)`. -/
def lookupSlotD (used : UsedSlots) (t : ℚ) : ℚ := (lookupSlot used t).getD 0

/-- The mutation `used_slots.setdefault(t, 0); used_slots[t] += p`. -/
def addPower : UsedSlots → ℚ → ℚ → UsedSlots
  | [], t, p => [(t, p)]
  | (k, v) :: rest, t, p =>
    if k = t then (k, v + p) :: rest else (k, v) :: addPower rest t p

/-- `ApplianceScheduler._is_slot_available`: every hour of the window that
already appears in the dict must keep `committed + power_needed ≤ 10`. -/
def isSlotAvailable (used : UsedSlots) (start : ℚ) (d : ℤ) (p : ℚ) : Bool :=
  (List.range d.toNat).all fun k =>
    match lookupSlot used (start + (k : ℚ)) with
    | some v => decide (v + p ≤ 10)
    | none => true

/-- Index of the first production point whose timestamp equals `s`
(the `for i, (timestamp, _) in enumerate(...): if timestamp == start` scan). -/
def findFirstIdx : List (ℚ × ℚ) → ℚ → Option ℕ
  | [], _ => none
  | (t, _) :: rest, s =>
    if t = s then some 0 else (findFirstIdx rest s).map (· + 1)

/-- Inner loop of `_calculate_slot_score`, threading `current_time` and the
accumulated score; `.error ()` models the `ZeroDivisionError` raised by
`available_solar / appliance.power_rating` when the rating is zero. -/
def scoreLoop (baseLoad : ℚ) (a : Appliance) (ps : List (ℚ × ℚ)) (used : UsedSlots) (i : ℕ) :
    List ℕ → ℚ → ℚ → Except Unit ℚ
  | [], _, score => .ok score
  | j :: js, cur, score =>
    if i + j < ps.length then
      if a.power_rating = 0 then .error ()
      else
        let slotProduction := (ps.getD (i + j) (0, 0)).2
        let usedPower := lookupSlotD used cur
        let availableSolar := max 0 (slotProduction - baseLoad - usedPower)
        let coverage := min 1 (availableSolar / a.power_rating)
        let bonus : ℚ :=
          if 10 ≤ hourOf cur ∧ hourOf cur ≤ 16 ∧ 7 < a.flexibility then 20 else 0
        scoreLoop baseLoad a ps used i js (cur + 1) (score + coverage * 100 + bonus)
    else scoreLoop baseLoad a ps used i js cur score

/-- `ApplianceScheduler._calculate_slot_score`. -/
def calcSlotScore (baseLoad : ℚ) (a : Appliance) (start : ℚ) (d : ℤ)
    (ps : List (ℚ × ℚ)) (used : UsedSlots) : Except Unit ℚ :=
  match findFirstIdx ps start with
  | none => .ok 0
  | some i => scoreLoop baseLoad a ps used i (List.range d.toNat) start 0

/-- Inner loop of `_create_schedule_item`, accumulating solar and grid kWh. -/
def energyLoop (baseLoad p : ℚ) (ps : List (ℚ × ℚ)) (used : UsedSlots) (i : ℕ) :
    List ℕ → ℚ → ℚ → ℚ → ℚ × ℚ
  | [], _, solar, grid => (solar, grid)
  | j :: js, cur, solar, grid =>
    if i + j < ps.length then
      let slotProduction := (ps.getD (i + j) (0, 0)).2
      let usedPower := lookupSlotD used cur
      let availableSolar := max 0 (slotProduction - baseLoad - usedPower)
      let solarUsed := min p availableSolar
      energyLoop baseLoad p ps used i js (cur + 1) (solar + solarUsed) (grid + (p - solarUsed))
    else energyLoop baseLoad p ps used i js cur solar grid

/-- The `(solar_energy, grid_energy)` pair computed by the loop of
`_create_schedule_item`. -/
def solarGridEnergies (baseLoad p : ℚ) (ps : List (ℚ × ℚ)) (used : UsedSlots)
    (start : ℚ) (d : ℤ) : ℚ × ℚ :=
  match findFirstIdx ps start with
  | none => ((0 : ℚ), (0 : ℚ))
  | some i => energyLoop baseLoad p ps used i (List.range d.toNat) start 0 0

/-- `ApplianceScheduler._create_schedule_item`. -/
def createScheduleItem (baseLoad rate : ℚ) (a : Appliance) (start : ℚ) (d : ℤ)
    (ps : List (ℚ × ℚ)) (used : UsedSlots) : ScheduleItem :=
  let totalEnergy := a.power_rating * a.duration
  let energies := solarGridEnergies baseLoad a.power_rating ps used start d
  { appliance := a
    start_time := start
    end_time := start + (d : ℚ)
    solar_coverage := if 0 < totalEnergy then energies.1 / totalEnergy else 0
    grid_usage := energies.2
    cost_savings := energies.1 * rate }

/-- Scan of candidate start indices in `_find_best_time_slot`; `.error ()`
at an index past the end models the `IndexError` of
`production_schedule[i][0]` when `duration_slots < 1`. -/
def findBestAux (baseLoad rate : ℚ) (a : Appliance) (ps : List (ℚ × ℚ)) (used : UsedSlots) :
    List ℕ → ℚ → Option ScheduleItem → Except Unit (Option ScheduleItem)
  | [], _, best => .ok best
  | i :: idxs, bestScore, best =>
    match ps[i]? with
    | none => .error ()
    | some pt =>
      let startTime := pt.1
      let d := pyInt a.duration
      if isSlotAvailable used startTime d a.power_rating then
        match calcSlotScore baseLoad a startTime d ps used with
        | .error e => .error e
        | .ok score =>
          if bestScore < score then
            findBestAux baseLoad rate a ps used idxs score
              (some (createScheduleItem baseLoad rate a startTime d ps used))
          else findBestAux baseLoad rate a ps used idxs bestScore best
      else findBestAux baseLoad rate a ps used idxs bestScore best

/-- `ApplianceScheduler._find_best_time_slot`: the candidate start indices
are `range(len(production_schedule) - duration_slots + 1)`, the initial
best score is `-1`. -/
def findBestTimeSlot (baseLoad rate : ℚ) (a : Appliance) (ps : List (ℚ × ℚ))
    (used : UsedSlots) : Except Unit (Option ScheduleItem) :=
  findBestAux baseLoad rate a ps used
    (List.range ((ps.length : ℤ) - pyInt a.duration + 1).toNat) (-1) none

/-- The `while current_time < end_time` loop of `_mark_slots_used`,
unrolled to its iteration count. -/
def markLoop (p : ℚ) : ℕ → ℚ → UsedSlots → UsedSlots
  | 0, _, used => used
  | n + 1, start, used => markLoop p n (start + 1) (addPower used start p)

/-- `ApplianceScheduler._mark_slots_used`. -/
def markSlotsUsed (item : ScheduleItem) (used : UsedSlots) : UsedSlots :=
  markLoop item.appliance.power_rating (⌈item.end_time - item.start_time⌉).toNat
    item.start_time used

/-- The sort key comparison realised by
`sorted(key=lambda a: (a.priority.value, -a.flexibility), reverse=True)`:
`a` may precede `b` iff `(priority, -flexibility)` of `a` is lexicographically
at least that of `b`. -/
def appLE (a b : Appliance) : Bool :=
  decide (b.priority.value < a.priority.value ∨
    (b.priority.value = a.priority.value ∧ a.flexibility ≤ b.flexibility))

/-- The sorted appliance list built at the top of `optimize_schedule`
(Python `sorted` is a stable merge sort). -/
def sortedAppliances (apps : List Appliance) : List Appliance :=
  apps.mergeSort appLE

/-- Main loop of `optimize_schedule` over the sorted appliances. -/
def scheduleLoop (baseLoad rate : ℚ) (ps : List (ℚ × ℚ)) :
    List Appliance → List ScheduleItem → UsedSlots →
    Except Unit (List ScheduleItem × UsedSlots)
  | [], items, used => .ok (items, used)
  | a :: apps, items, used =>
    match findBestTimeSlot baseLoad rate a ps used with
    | .error e => .error e
    | .ok none => scheduleLoop baseLoad rate ps apps items used
    | .ok (some item) =>
      scheduleLoop baseLoad rate ps apps (items ++ [item]) (markSlotsUsed item used)

/-- `ApplianceScheduler.optimize_schedule`, also returning the final
`used_slots` map. -/
def optimizeScheduleFull (baseLoad rate : ℚ) (apps : List Appliance) (ps : List (ℚ × ℚ)) :
    Except Unit (List ScheduleItem × UsedSlots) :=
  scheduleLoop baseLoad rate ps (sortedAppliances apps) [] []

/-- `ApplianceScheduler.optimize_schedule`. -/
def optimizeSchedule (baseLoad rate : ℚ) (apps : List Appliance) (ps : List (ℚ × ℚ)) :
    Except Unit (List ScheduleItem) :=
  (optimizeScheduleFull baseLoad rate apps ps).map Prod.fst

/-- Summary dict returned by `get_schedule_summary`. -/
structure ScheduleSummary where
  total_energy : ℚ
  solar_energy : ℚ
  grid_energy : ℚ
  solar_percentage : ℚ
  cost_savings : ℚ
  scheduled_appliances : ℕ

deriving instance DecidableEq, Repr for ScheduleSummary

/-- `ApplianceScheduler.get_schedule_summary`. -/
def getScheduleSummary (schedule : List ScheduleItem) : ScheduleSummary :=
  let totalEnergy :=
    (schedule.map fun it => it.appliance.power_rating * it.appliance.duration).sum
  let totalSolar :=
    (schedule.map fun it =>
      it.solar_coverage * (it.appliance.power_rating * it.appliance.duration)).sum
  { total_energy := totalEnergy
    solar_energy := totalSolar
    grid_energy := (schedule.map (·.grid_usage)).sum
    solar_percentage := if 0 < totalEnergy then totalSolar / totalEnergy * 100 else 0
    cost_savings := (schedule.map (·.cost_savings)).sum
    scheduled_appliances := schedule.length }

/-- State-machine scan of `SolarCalculator.get_optimal_time_windows`:
the state is the open window's start (if any) and its running length. -/
def windowScan (minPower durationHours : ℚ) :
    List (ℚ × ℚ) → Option ℚ → ℕ → List (ℚ × ℚ)
  | [], _, _ => []
  | (t, output) :: rest, curStart, curLen =>
    if minPower ≤ output then
      let s := curStart.getD t
      let len : ℕ := match curStart with
        | none => 1
        | some _ => curLen + 1
      if durationHours ≤ (len : ℚ) then
        (s, t) :: windowScan minPower durationHours rest none 0
      else windowScan minPower durationHours rest (some s) len
    else windowScan minPower durationHours rest none 0

/-- `SolarCalculator.get_optimal_time_windows`. -/
def getOptimalTimeWindows (ps : List (ℚ × ℚ)) (minPower durationHours : ℚ) :
    List (ℚ × ℚ) :=
  windowScan minPower durationHours ps none 0

/-- WeatherData dataclass from `weather.py`. -/
structure WeatherData where
  timestamp : ℚ
  temperature : ℚ
  cloud_cover : ℚ
  solar_irradiance : ℚ
  wind_speed : ℚ
  humidity : ℚ

deriving instance DecidableEq, Repr for WeatherData

/-- SolarConfig dataclass from `solar_calculator.py` (the `location` dict
is flattened into `lat` and `lon`). -/
structure SolarConfig where
  panel_wattage : ℚ
  panel_count : ℕ
  efficiency : ℚ
  tilt_angle : ℚ
  azimuth_angle : ℚ
  lat : ℚ
  lon : ℚ

deriving instance DecidableEq, Repr for SolarConfig

/-- `math.radians`. -/
noncomputable def radians (deg : ℝ) : ℝ := deg * Real.pi / 180

/-- `math.atan2`, written out by quadrant. -/
noncomputable def atan2 (y x : ℝ) : ℝ :=
  if 0 < x then Real.arctan (y / x)
  else if x < 0 ∧ 0 ≤ y then Real.arctan (y / x) + Real.pi
  else if x < 0 ∧ y < 0 then Real.arctan (y / x) - Real.pi
  else if x = 0 ∧ 0 < y then Real.pi / 2
  else if x = 0 ∧ y < 0 then -(Real.pi / 2)
  else 0

/-- `timestamp.hour + timestamp.minute / 60.0` for a rational-hours
timestamp (seconds are dropped, as in the Python expression). -/
def hourFrac (t : ℚ) : ℚ := (hourOf t : ℚ) + (⌊(t - ⌊t⌋) * 60⌋ : ℚ) / 60

/-- `SolarCalculator._calculate_angle_factor`. -/
noncomputable def calculateAngleFactor (cfg : SolarConfig) (t : ℚ) : ℝ :=
  let latitude := radians (cfg.lat : ℝ)
  let dayOfYear : ℤ := ⌊t / 24⌋ + 1
  let declination := radians (23.45 * Real.sin (radians (360 * (284 + (dayOfYear : ℝ)) / 365)))
  let hourAngle := radians (15 * ((hourFrac t : ℝ) - 12))
  let elevation := Real.arcsin (Real.sin declination * Real.sin latitude +
    Real.cos declination * Real.cos latitude * Real.cos hourAngle)
  let azimuth := atan2 (Real.sin hourAngle)
    (Real.cos hourAngle * Real.sin latitude - Real.tan declination * Real.cos latitude)
  let panelTilt := radians (cfg.tilt_angle : ℝ)
  let panelAzimuth := radians ((cfg.azimuth_angle : ℝ) - 180)
  let cosIncidence := Real.sin elevation * Real.cos panelTilt +
    Real.cos elevation * Real.sin panelTilt * Real.cos (azimuth - panelAzimuth)
  max 0 cosIncidence

/-- `SolarCalculator.calculate_solar_output`. -/
noncomputable def calculateSolarOutput (cfg : SolarConfig) (w : WeatherData) : ℝ :=
  let panelArea : ℝ := (cfg.panel_count : ℝ) * 2
  let baseOutput := panelArea * (cfg.efficiency : ℝ) * (w.solar_irradiance : ℝ) / 1000
  let tempFactor : ℝ := 1 + (-0.004) * ((w.temperature : ℝ) - 25)
  max 0 (baseOutput * tempFactor * calculateAngleFactor cfg w.timestamp)

/-- `SolarCalculator.calculate_daily_production`. -/
noncomputable def calculateDailyProduction (cfg : SolarConfig) (forecast : List WeatherData) :
    List (ℚ × ℝ) :=
  forecast.map fun w => (w.timestamp, calculateSolarOutput cfg w)

/-- Whether `t` is one of the `n` hourly marks `s, s+1, …, s+n-1`. -/
def coveredBy (s : ℚ) : ℕ → ℚ → Bool
  | 0, _ => false
  | n + 1, t => decide (t = s) || coveredBy (s + 1) n t

/-- Total power committed at timestamp `t` by the hourly marks of the
given schedule items (one mark per whole hour of each item's window). -/
def slotLoad (items : List ScheduleItem) (t : ℚ) : ℚ :=
  (items.map fun it =>
    if coveredBy it.start_time (⌈it.end_time - it.start_time⌉).toNat t
    then it.appliance.power_rating else 0).sum

/-- Total power of the schedule items whose `[start_time, end_time)`
interval contains the timestamp `t`. -/
def hourLoad (items : List ScheduleItem) (t : ℚ) : ℚ :=
  (items.map fun it =>
    if it.start_time ≤ t ∧ t < it.end_time then it.appliance.power_rating else 0).sum

/-- The solar energy of an item, reconstructed from its stored coverage
fraction (`solar_coverage * power_rating * duration`). -/
def itemSolarEnergy (it : ScheduleItem) : ℚ :=
  it.solar_coverage * (it.appliance.power_rating * it.appliance.duration)

/-! ### Association-list and marking lemmas -/

theorem lookupSlot_addPower (used : UsedSlots) (t p s : ℚ) :
    lookupSlot (addPower used t p) s =
      if s = t then some (lookupSlotD used t + p) else lookupSlot used s := by
  induction used with
  | nil =>
    rcases eq_or_ne s t with h | h
    · subst h
      simp [addPower, lookupSlot, lookupSlotD]
    · simp [addPower, lookupSlot, lookupSlotD, h, Ne.symm h]
  | cons kv rest ih =>
    obtain ⟨k, v⟩ := kv
    rcases eq_or_ne k t with hk | hk
    · subst hk
      rcases eq_or_ne s k with hs | hs
      · subst hs
        simp [addPower, lookupSlot, lookupSlotD]
      · simp [addPower, lookupSlot, lookupSlotD, hs, Ne.symm hs]
    · rcases eq_or_ne s k with hs | hs
      · subst hs
        have hst : s ≠ t := fun h => hk (h ▸ rfl)
        simp [addPower, lookupSlot, if_neg hk, hst]
      · have hks : k ≠ s := Ne.symm hs
        simp only [addPower, if_neg hk, lookupSlot, if_neg hks]
        rw [ih]
        simp [lookupSlotD, lookupSlot, if_neg hk]

theorem lookupSlotD_addPower (used : UsedSlots) (t p s : ℚ) :
    lookupSlotD (addPower used t p) s =
      lookupSlotD used s + if s = t then p else 0 := by
  rcases eq_or_ne s t with h | h
  · subst h
    simp [lookupSlotD, lookupSlot_addPower]
  · simp [lookupSlotD, lookupSlot_addPower, h]

theorem coveredBy_false_of_lt (s : ℚ) (n : ℕ) (t : ℚ) (h : t < s) :
    coveredBy s n t = false := by
  induction n generalizing s with
  | zero => rfl
  | succ n ih =>
    simp only [coveredBy, Bool.or_eq_false_iff, decide_eq_false_iff_not]
    exact ⟨ne_of_lt h, ih (s + 1) (h.trans (by linarith))⟩

theorem coveredBy_iff (s : ℚ) (n : ℕ) (t : ℚ) :
    coveredBy s n t = true ↔ ∃ k : ℕ, k < n ∧ t = s + (k : ℚ) := by
  induction n generalizing s with
  | zero => simp [coveredBy]
  | succ n ih =>
    simp only [coveredBy, Bool.or_eq_true, decide_eq_true_eq, ih]
    constructor
    · rintro (h | ⟨k, hk, rfl⟩)
      · exact ⟨0, Nat.succ_pos n, by simpa using h⟩
      · exact ⟨k + 1, by omega, by push_cast; ring⟩
    · rintro ⟨k, hk, rfl⟩
      cases k with
      | zero => left; simp
      | succ k => right; exact ⟨k, by omega, by push_cast; ring⟩

theorem lookupSlotD_markLoop (p : ℚ) (n : ℕ) (s : ℚ) (used : UsedSlots) (t : ℚ) :
    lookupSlotD (markLoop p n s used) t =
      lookupSlotD used t + if coveredBy s n t then p else 0 := by
  induction n generalizing s used with
  | zero => simp [markLoop, coveredBy]
  | succ n ih =>
    simp only [markLoop, coveredBy]
    rw [ih, lookupSlotD_addPower]
    rcases eq_or_ne t s with h | h
    · subst h
      simp [coveredBy_false_of_lt (t + 1) n t (by linarith)]
    · simp [h]

theorem lookupSlotD_markSlotsUsed (item : ScheduleItem) (used : UsedSlots) (t : ℚ) :
    lookupSlotD (markSlotsUsed item used) t =
      lookupSlotD used t +
        if coveredBy item.start_time (⌈item.end_time - item.start_time⌉).toNat t
        then item.appliance.power_rating else 0 := by
  unfold markSlotsUsed
  exact lookupSlotD_markLoop _ _ _ _ _

theorem slotLoad_append (items : List ScheduleItem) (it : ScheduleItem) (t : ℚ) :
    slotLoad (items ++ [it]) t =
      slotLoad items t +
        if coveredBy it.start_time (⌈it.end_time - it.start_time⌉).toNat t
        then it.appliance.power_rating else 0 := by
  simp [slotLoad]

/-! ### Availability, first-index and energy-accounting lemmas -/

theorem isSlotAvailable_spec {used : UsedSlots} {s : ℚ} {d : ℤ} {p : ℚ}
    (h : isSlotAvailable used s d p = true) :
    ∀ k : ℕ, k < d.toNat → ∀ v, lookupSlot used (s + (k : ℚ)) = some v → v + p ≤ 10 := by
  intro k hk v hv
  have h' := (List.all_eq_true.mp h) k (List.mem_range.mpr hk)
  rw [hv] at h'
  exact of_decide_eq_true h'

theorem findFirstIdx_le {ps : List (ℚ × ℚ)} {i : ℕ} {pt : ℚ × ℚ}
    (h : ps[i]? = some pt) (hs : pt.1 = s) :
    ∃ i0, findFirstIdx ps s = some i0 ∧ i0 ≤ i := by
  induction ps generalizing i with
  | nil => simp at h
  | cons q rest ih =>
    rcases eq_or_ne q.1 s with hq | hq
    · exact ⟨0, by simp [findFirstIdx, hq], Nat.zero_le i⟩
    · cases i with
      | zero =>
        simp only [List.getElem?_cons_zero, Option.some.injEq] at h
        exact absurd (h ▸ hs) hq
      | succ i =>
        simp only [List.getElem?_cons_succ] at h
        obtain ⟨i0, hfind, hle⟩ := ih h
        refine ⟨i0 + 1, ?_, by omega⟩
        simp [findFirstIdx, hq, hfind]

theorem energyLoop_sum (baseLoad p : ℚ) (ps : List (ℚ × ℚ)) (used : UsedSlots) (i : ℕ) :
    ∀ (js : List ℕ) (cur s0 g0 : ℚ), (∀ j ∈ js, i + j < ps.length) →
      (energyLoop baseLoad p ps used i js cur s0 g0).1 +
        (energyLoop baseLoad p ps used i js cur s0 g0).2 = s0 + g0 + p * js.length := by
  intro js
  induction js with
  | nil => intro cur s0 g0 _; simp [energyLoop]
  | cons j js ih =>
    intro cur s0 g0 hb
    have hj : i + j < ps.length := hb j (List.mem_cons_self j js)
    simp only [energyLoop, if_pos hj]
    rw [ih _ _ _ (fun j' hj' => hb j' (List.mem_cons_of_mem j hj'))]
    simp only [List.length_cons]
    push_cast
    ring

theorem energyLoop_solar_bounds (baseLoad p : ℚ) (ps : List (ℚ × ℚ)) (used : UsedSlots)
    (i : ℕ) (hp : 0 ≤ p) :
    ∀ (js : List ℕ) (cur s0 g0 : ℚ),
      s0 ≤ (energyLoop baseLoad p ps used i js cur s0 g0).1 ∧
      (energyLoop baseLoad p ps used i js cur s0 g0).1 ≤ s0 + p * js.length := by
  intro js
  induction js with
  | nil => intro cur s0 g0; simp [energyLoop]
  | cons j js ih =>
    intro cur s0 g0
    by_cases hj : i + j < ps.length
    · simp only [energyLoop, if_pos hj]
      have hsu₀ : 0 ≤ min p (max 0 ((ps.getD (i + j) (0, 0)).2 - baseLoad - lookupSlotD used cur)) :=
        le_min hp (le_max_left 0 _)
      have hsu₁ : min p (max 0 ((ps.getD (i + j) (0, 0)).2 - baseLoad - lookupSlotD used cur)) ≤ p :=
        min_le_left _ _
      obtain ⟨h1, h2⟩ := ih (cur + 1)
        (s0 + min p (max 0 ((ps.getD (i + j) (0, 0)).2 - baseLoad - lookupSlotD used cur)))
        (g0 + (p - min p (max 0 ((ps.getD (i + j) (0, 0)).2 - baseLoad - lookupSlotD used cur))))
      constructor
      · linarith
      · refine h2.trans ?_
        simp only [List.length_cons]
        push_cast
        linarith
    · simp only [energyLoop, if_neg hj]
      obtain ⟨h1, h2⟩ := ih cur s0 g0
      refine ⟨h1, h2.trans ?_⟩
      simp only [List.length_cons]
      push_cast
      linarith

/-! ### Truncation and schedule-item facts -/

theorem pyInt_of_nonneg {q : ℚ} (h : 0 ≤ q) : pyInt q = ⌊q⌋ := if_pos h

theorem one_le_duration_of_pyInt {q : ℚ} (h : 1 ≤ pyInt q) : 1 ≤ q := by
  rcases le_or_lt 0 q with hq | hq
  · rw [pyInt_of_nonneg hq] at h
    exact_mod_cast (Int.le_floor.mp h)
  · rw [pyInt, if_neg (not_le.mpr hq)] at h
    have : ⌈q⌉ ≤ 0 := Int.ceil_le.mpr (by exact_mod_cast hq.le)
    omega

theorem pyInt_one_le_of_le {q : ℚ} (h : 1 ≤ q) : 1 ≤ pyInt q := by
  rw [pyInt_of_nonneg (le_trans zero_le_one h)]
  exact Int.le_floor.mpr (by exact_mod_cast h)

theorem pyInt_toNat_le {q : ℚ} (h : 0 < q) : ((pyInt q).toNat : ℚ) ≤ q := by
  rw [pyInt_of_nonneg h.le]
  have h0 : (0 : ℤ) ≤ ⌊q⌋ := Int.floor_nonneg.mpr h.le
  have hc : ((⌊q⌋.toNat : ℕ) : ℚ) = ((⌊q⌋ : ℤ) : ℚ) := by
    exact_mod_cast Int.toNat_of_nonneg h0
  rw [hc]
  exact Int.floor_le q

theorem solarGridEnergies_bounds (baseLoad p : ℚ) (ps : List (ℚ × ℚ)) (used : UsedSlots)
    (s : ℚ) (d : ℤ) (hp : 0 ≤ p) :
    0 ≤ (solarGridEnergies baseLoad p ps used s d).1 ∧
    (solarGridEnergies baseLoad p ps used s d).1 ≤ p * (d.toNat : ℚ) := by
  unfold solarGridEnergies
  cases h : findFirstIdx ps s with
  | none => exact ⟨le_refl 0, mul_nonneg hp (Nat.cast_nonneg _)⟩
  | some i =>
    have := energyLoop_solar_bounds baseLoad p ps used i hp (List.range d.toNat) s 0 0
    simpa using this

theorem solarGridEnergies_sum {ps : List (ℚ × ℚ)} {i : ℕ} {pt : ℚ × ℚ}
    (baseLoad p : ℚ) (used : UsedSlots) {s : ℚ} {d : ℤ}
    (hidx : ps[i]? = some pt) (hpt : pt.1 = s)
    (hbound : i + d.toNat ≤ ps.length) :
    (solarGridEnergies baseLoad p ps used s d).1 +
      (solarGridEnergies baseLoad p ps used s d).2 = p * (d.toNat : ℚ) := by
  obtain ⟨i0, hfind, hle⟩ := findFirstIdx_le hidx hpt
  unfold solarGridEnergies
  rw [hfind]
  rw [energyLoop_sum baseLoad p ps used i0 (List.range d.toNat) s 0 0
    (fun j hj => by
      have := List.mem_range.mp hj
      omega)]
  simp

theorem createScheduleItem_fields (bl rt : ℚ) (a : Appliance) (s : ℚ) (d : ℤ)
    (ps : List (ℚ × ℚ)) (used : UsedSlots) :
    (createScheduleItem bl rt a s d ps used).appliance = a ∧
    (createScheduleItem bl rt a s d ps used).start_time = s ∧
    (createScheduleItem bl rt a s d ps used).end_time = s + (d : ℚ) ∧
    (createScheduleItem bl rt a s d ps used).grid_usage =
      (solarGridEnergies bl a.power_rating ps used s d).2 ∧
    (createScheduleItem bl rt a s d ps used).cost_savings =
      (solarGridEnergies bl a.power_rating ps used s d).1 * rt ∧
    (createScheduleItem bl rt a s d ps used).solar_coverage =
      (if 0 < a.power_rating * a.duration then
        (solarGridEnergies bl a.power_rating ps used s d).1 / (a.power_rating * a.duration)
      else 0) :=
  ⟨rfl, rfl, rfl, rfl, rfl, rfl⟩

theorem createItem_coverage_bounds (bl rt : ℚ) (a : Appliance) (s : ℚ)
    (ps : List (ℚ × ℚ)) (used : UsedSlots)
    (hp : 0 < a.power_rating) (hd : 0 < a.duration) :
    0 ≤ (createScheduleItem bl rt a s (pyInt a.duration) ps used).solar_coverage ∧
    (createScheduleItem bl rt a s (pyInt a.duration) ps used).solar_coverage ≤ 1 := by
  have htot : 0 < a.power_rating * a.duration := mul_pos hp hd
  obtain ⟨hs0, hs1⟩ :=
    solarGridEnergies_bounds bl a.power_rating ps used s (pyInt a.duration) hp.le
  have hcov := (createScheduleItem_fields bl rt a s (pyInt a.duration) ps used).2.2.2.2.2
  rw [hcov, if_pos htot]
  constructor
  · exact div_nonneg hs0 htot.le
  · rw [div_le_one htot]
    refine hs1.trans ?_
    have := pyInt_toNat_le hd
    nlinarith

theorem createItem_energy_identity {ps : List (ℚ × ℚ)} {i : ℕ} {pt : ℚ × ℚ}
    (bl rt : ℚ) (a : Appliance) (used : UsedSlots)
    (hp : 0 < a.power_rating) (hd : 1 ≤ pyInt a.duration)
    (hidx : ps[i]? = some pt)
    (hbound : (i : ℤ) + pyInt a.duration ≤ ps.length) :
    itemSolarEnergy (createScheduleItem bl rt a pt.1 (pyInt a.duration) ps used) +
      (createScheduleItem bl rt a pt.1 (pyInt a.duration) ps used).grid_usage =
      a.power_rating * ((pyInt a.duration : ℤ) : ℚ) ∧
    (createScheduleItem bl rt a pt.1 (pyInt a.duration) ps used).cost_savings =
      itemSolarEnergy (createScheduleItem bl rt a pt.1 (pyInt a.duration) ps used) * rt := by
  have hdur : (1 : ℚ) ≤ a.duration := one_le_duration_of_pyInt hd
  have htot : 0 < a.power_rating * a.duration :=
    mul_pos hp (lt_of_lt_of_le zero_lt_one hdur)
  have hbn : i + (pyInt a.duration).toNat ≤ ps.length := by
    have := Int.toNat_of_nonneg (by omega : (0 : ℤ) ≤ pyInt a.duration)
    omega
  have hsum := solarGridEnergies_sum bl a.power_rating used hidx rfl hbn
  obtain ⟨-, -, -, hgrid, hcost, hcov⟩ :=
    createScheduleItem_fields bl rt a pt.1 (pyInt a.duration) ps used
  have hsolar : itemSolarEnergy (createScheduleItem bl rt a pt.1 (pyInt a.duration) ps used) =
      (solarGridEnergies bl a.power_rating ps used pt.1 (pyInt a.duration)).1 := by
    unfold itemSolarEnergy
    rw [(createScheduleItem_fields bl rt a pt.1 (pyInt a.duration) ps used).1, hcov,
      if_pos htot, div_mul_cancel₀ _ (ne_of_gt htot)]
  have hcast : (((pyInt a.duration).toNat : ℕ) : ℚ) = ((pyInt a.duration : ℤ) : ℚ) := by
    exact_mod_cast Int.toNat_of_nonneg (by omega : (0 : ℤ) ≤ pyInt a.duration)
  constructor
  · rw [hsolar, hgrid, hsum, hcast]
  · rw [hcost, hsolar]

/-! ### Facts about the best-slot scan -/

theorem findBestAux_error_of_oob (bl rt : ℚ) (a : Appliance) (ps : List (ℚ × ℚ))
    (used : UsedSlots) :
    ∀ (idxs : List ℕ) (bs : ℚ) (best : Option ScheduleItem),
      (∃ i ∈ idxs, ps.length ≤ i) →
      ∀ res, findBestAux bl rt a ps used idxs bs best ≠ .ok res := by
  intro idxs
  induction idxs with
  | nil => rintro bs best ⟨i, hi, -⟩ res; simp at hi
  | cons i idxs ih =>
    rintro bs best ⟨i', hi', hlen⟩ res
    rcases List.mem_cons.mp hi' with rfl | htail
    · have : ps[i']? = none := List.getElem?_eq_none hlen
      simp [findBestAux, this]
    · simp only [findBestAux]
      cases hpt : ps[i]? with
      | none => simp
      | some pt =>
        by_cases hav : isSlotAvailable used pt.1 (pyInt a.duration) a.power_rating
        · simp only [hav, if_true]
          cases hsc : calcSlotScore bl a pt.1 (pyInt a.duration) ps used with
          | error e => simp
          | ok sc =>
            by_cases hlt : bs < sc
            · simp only [hlt, if_true]
              exact ih _ _ ⟨i', htail, hlen⟩ res
            · simp only [hlt, if_false]
              exact ih _ _ ⟨i', htail, hlen⟩ res
        · simp only [hav, if_false]
          exact ih _ _ ⟨i', htail, hlen⟩ res

theorem findBestAux_ok_some (bl rt : ℚ) (a : Appliance) (ps : List (ℚ × ℚ))
    (used : UsedSlots) :
    ∀ (idxs : List ℕ) (bs : ℚ) (best : Option ScheduleItem) (it : ScheduleItem),
      findBestAux bl rt a ps used idxs bs best = .ok (some it) →
      best = some it ∨ ∃ i ∈ idxs, ∃ pt, ps[i]? = some pt ∧
        isSlotAvailable used pt.1 (pyInt a.duration) a.power_rating = true ∧
        it = createScheduleItem bl rt a pt.1 (pyInt a.duration) ps used := by
  intro idxs
  induction idxs with
  | nil =>
    intro bs best it h
    simp only [findBestAux, Except.ok.injEq] at h
    exact Or.inl h
  | cons i idxs ih =>
    intro bs best it h
    cases hpt : ps[i]? with
    | none => simp [findBestAux, hpt] at h
    | some pt =>
      simp only [findBestAux, hpt] at h
      by_cases hav : isSlotAvailable used pt.1 (pyInt a.duration) a.power_rating = true
      · rw [if_pos hav] at h
        cases hsc : calcSlotScore bl a pt.1 (pyInt a.duration) ps used with
        | error e => rw [hsc] at h; simp at h
        | ok sc =>
          rw [hsc] at h
          simp only [] at h
          by_cases hlt : bs < sc
          · rw [if_pos hlt] at h
            rcases ih _ _ _ h with hbest | ⟨i', hi', pt', h1, h2, h3⟩
            · exact Or.inr ⟨i, List.mem_cons_self i idxs, pt, hpt, hav, by
                injection hbest with hb; exact hb.symm⟩
            · exact Or.inr ⟨i', List.mem_cons_of_mem i hi', pt', h1, h2, h3⟩
          · rw [if_neg hlt] at h
            rcases ih _ _ _ h with hbest | ⟨i', hi', pt', h1, h2, h3⟩
            · exact Or.inl hbest
            · exact Or.inr ⟨i', List.mem_cons_of_mem i hi', pt', h1, h2, h3⟩
      · rw [if_neg hav] at h
        rcases ih _ _ _ h with hbest | ⟨i', hi', pt', h1, h2, h3⟩
        · exact Or.inl hbest
        · exact Or.inr ⟨i', List.mem_cons_of_mem i hi', pt', h1, h2, h3⟩

theorem findBestTimeSlot_ok_duration {bl rt : ℚ} {a : Appliance} {ps : List (ℚ × ℚ)}
    {used : UsedSlots} {res : Option ScheduleItem}
    (h : findBestTimeSlot bl rt a ps used = .ok res) : 1 ≤ pyInt a.duration := by
  by_contra hd
  push_neg at hd
  have hmem : ps.length ∈ List.range ((ps.length : ℤ) - pyInt a.duration + 1).toNat := by
    rw [List.mem_range]
    omega
  exact findBestAux_error_of_oob bl rt a ps used _ (-1) none
    ⟨ps.length, hmem, le_refl _⟩ res h

theorem findBestTimeSlot_ok_some {bl rt : ℚ} {a : Appliance} {ps : List (ℚ × ℚ)}
    {used : UsedSlots} {it : ScheduleItem}
    (h : findBestTimeSlot bl rt a ps used = .ok (some it)) :
    ∃ (i : ℕ) (pt : ℚ × ℚ), ps[i]? = some pt ∧ (i : ℤ) + pyInt a.duration ≤ ps.length ∧
      isSlotAvailable used pt.1 (pyInt a.duration) a.power_rating = true ∧
      it = createScheduleItem bl rt a pt.1 (pyInt a.duration) ps used := by
  rcases findBestAux_ok_some bl rt a ps used _ (-1) none it h with hbest | ⟨i, hi, pt, h1, h2, h3⟩
  · exact absurd hbest (by simp)
  · refine ⟨i, pt, h1, ?_, h2, h3⟩
    have := List.mem_range.mp hi
    omega

/-! ### Facts about the main scheduling loop -/

theorem scheduleLoop_ok_items (bl rt : ℚ) (ps : List (ℚ × ℚ)) :
    ∀ (alist : List Appliance) (items res : List ScheduleItem) (used usedF : UsedSlots),
      scheduleLoop bl rt ps alist items used = .ok (res, usedF) →
      ∀ it ∈ res, it ∈ items ∨ ∃ a ∈ alist, ∃ u : UsedSlots,
        findBestTimeSlot bl rt a ps u = .ok (some it) := by
  intro alist
  induction alist with
  | nil =>
    intro items res used usedF h it hit
    simp only [scheduleLoop, Except.ok.injEq, Prod.mk.injEq] at h
    exact Or.inl (h.1 ▸ hit)
  | cons a alist ih =>
    intro items res used usedF h it hit
    cases hfb : findBestTimeSlot bl rt a ps used with
    | error e => simp [scheduleLoop, hfb] at h
    | ok obest =>
      cases obest with
      | none =>
        rw [scheduleLoop, hfb] at h
        simp only [] at h
        rcases ih items res used usedF h it hit with hin | ⟨a', ha', u, hu⟩
        · exact Or.inl hin
        · exact Or.inr ⟨a', List.mem_cons_of_mem a ha', u, hu⟩
      | some item =>
        rw [scheduleLoop, hfb] at h
        simp only [] at h
        rcases ih _ res _ usedF h it hit with hin | ⟨a', ha', u, hu⟩
        · rcases List.mem_append.mp hin with hin' | hin'
          · exact Or.inl hin'
          · have : it = item := by simpa using hin'
            exact Or.inr ⟨a, List.mem_cons_self a alist, used, this ▸ hfb⟩
        · exact Or.inr ⟨a', List.mem_cons_of_mem a ha', u, hu⟩

theorem item_aligned {bl rt : ℚ} {a : Appliance} {ps : List (ℚ × ℚ)} {used : UsedSlots}
    {it : ScheduleItem} (h : findBestTimeSlot bl rt a ps used = .ok (some it))
    (hint : ∀ pt ∈ ps, (pt.1 : ℚ).den = 1) :
    it.start_time.den = 1 ∧ it.appliance = a ∧ 1 ≤ pyInt a.duration ∧
      it.end_time = it.start_time + ((pyInt a.duration : ℤ) : ℚ) := by
  have hd := findBestTimeSlot_ok_duration h
  obtain ⟨i, pt, hidx, hbound, hav, hcreate⟩ := findBestTimeSlot_ok_some h
  obtain ⟨happ, hstart, hend, -, -, -⟩ :=
    createScheduleItem_fields bl rt a pt.1 (pyInt a.duration) ps used
  subst hcreate
  exact ⟨hstart ▸ hint pt (List.getElem?_mem hidx), happ, hd, hend.trans (by rw [hstart])⟩

theorem hourLoad_eq_slotLoad {items : List ScheduleItem}
    (halign : ∀ it ∈ items, it.start_time.den = 1 ∧
      ∃ d : ℤ, 1 ≤ d ∧ it.end_time = it.start_time + (d : ℚ))
    {t : ℚ} (ht : t.den = 1) : hourLoad items t = slotLoad items t := by
  induction items with
  | nil => rfl
  | cons it items ih =>
    have hstep := halign it (List.mem_cons_self it items)
    obtain ⟨hden, d, hd1, hend⟩ := hstep
    have htail := ih (fun it' hit' => halign it' (List.mem_cons_of_mem it hit'))
    simp only [hourLoad, slotLoad, List.map_cons, List.sum_cons] at htail ⊢
    rw [htail]
    congr 1
    have hcount : (⌈it.end_time - it.start_time⌉).toNat = d.toNat := by
      rw [hend, add_sub_cancel_left, Int.ceil_intCast]
    rw [hcount]
    obtain ⟨sn, hsn⟩ : ∃ sn : ℤ, it.start_time = (sn : ℚ) :=
      ⟨it.start_time.num, ((Rat.den_eq_one_iff _).mp hden).symm⟩
    obtain ⟨tn, htn⟩ : ∃ tn : ℤ, t = (tn : ℚ) :=
      ⟨t.num, ((Rat.den_eq_one_iff _).mp ht).symm⟩
    by_cases hc : it.start_time ≤ t ∧ t < it.end_time
    · rw [if_pos hc]
      have hcov : coveredBy it.start_time d.toNat t = true := by
        rw [coveredBy_iff]
        obtain ⟨h1, h2⟩ := hc
        rw [hend] at h2
        have hsn_le : sn ≤ tn := by
          rw [hsn, htn] at h1
          exact_mod_cast h1
        have htn_lt : tn < sn + d := by
          rw [hsn, htn] at h2
          exact_mod_cast h2
        refine ⟨(tn - sn).toNat, by omega, ?_⟩
        have hcast : (((tn - sn).toNat : ℕ) : ℚ) = ((tn - sn : ℤ) : ℚ) := by
          exact_mod_cast Int.toNat_of_nonneg (by omega : (0 : ℤ) ≤ tn - sn)
        rw [htn, hsn, hcast]
        push_cast
        ring
      rw [if_pos hcov]
    · rw [if_neg hc]
      have hcov : coveredBy it.start_time d.toNat t = false := by
        by_contra hcb
        rw [Bool.not_eq_false, coveredBy_iff] at hcb
        obtain ⟨k, hk, hkt⟩ := hcb
        apply hc
        constructor
        · rw [hkt]; linarith [Nat.cast_nonneg (α := ℚ) k]
        · rw [hkt, hend]
          have : (k : ℚ) < (d : ℚ) := by
            have hkd : (k : ℤ) < d := by omega
            exact_mod_cast hkd
          linarith
      rw [hcov]
      simp

theorem scheduleLoop_invariant (bl rt : ℚ) (ps : List (ℚ × ℚ)) :
    ∀ (alist : List Appliance) (items res : List ScheduleItem) (used usedF : UsedSlots),
      (∀ a ∈ alist, a.power_rating ≤ 10) →
      (∀ t, lookupSlotD used t = slotLoad items t) →
      (∀ t, lookupSlotD used t ≤ 10) →
      scheduleLoop bl rt ps alist items used = .ok (res, usedF) →
      (∀ t, lookupSlotD usedF t = slotLoad res t) ∧ (∀ t, lookupSlotD usedF t ≤ 10) := by
  intro alist
  induction alist with
  | nil =>
    intro items res used usedF _ hinv hbnd h
    simp only [scheduleLoop, Except.ok.injEq, Prod.mk.injEq] at h
    obtain ⟨hres, hused⟩ := h
    subst hres; subst hused
    exact ⟨hinv, hbnd⟩
  | cons a alist ih =>
    intro items res used usedF hp hinv hbnd h
    cases hfb : findBestTimeSlot bl rt a ps used with
    | error e => simp [scheduleLoop, hfb] at h
    | ok obest =>
      cases obest with
      | none =>
        rw [scheduleLoop, hfb] at h
        simp only [] at h
        exact ih items res used usedF (fun a' ha' => hp a' (List.mem_cons_of_mem a ha'))
          hinv hbnd h
      | some item =>
        rw [scheduleLoop, hfb] at h
        simp only [] at h
        obtain ⟨i, pt, hidx, hbound, hav, hcreate⟩ := findBestTimeSlot_ok_some hfb
        obtain ⟨happ, hstart, hend, -, -, -⟩ :=
          createScheduleItem_fields bl rt a pt.1 (pyInt a.duration) ps used
        rw [← hcreate] at happ hstart hend
        have hcount : (⌈item.end_time - item.start_time⌉).toNat = (pyInt a.duration).toNat := by
          rw [hend, hstart, add_sub_cancel_left, Int.ceil_intCast]
        have hinv' : ∀ t, lookupSlotD (markSlotsUsed item used) t =
            slotLoad (items ++ [item]) t := by
          intro t
          rw [lookupSlotD_markSlotsUsed, slotLoad_append, hinv t]
        have hbnd' : ∀ t, lookupSlotD (markSlotsUsed item used) t ≤ 10 := by
          intro t
          rw [lookupSlotD_markSlotsUsed]
          by_cases hcov : coveredBy item.start_time
              (⌈item.end_time - item.start_time⌉).toNat t = true
          · rw [if_pos hcov]
            rw [hcount] at hcov
            obtain ⟨k, hk, hkt⟩ := (coveredBy_iff _ _ _).mp hcov
            have hple : item.appliance.power_rating ≤ 10 := by
              rw [happ]; exact hp a (List.mem_cons_self a alist)
            cases hlk : lookupSlot used t with
            | none =>
              have : lookupSlotD used t = 0 := by rw [lookupSlotD, hlk]; rfl
              rw [this, zero_add]
              exact hple
            | some v =>
              have hvd : lookupSlotD used t = v := by rw [lookupSlotD, hlk]; rfl
              rw [hvd]
              have := isSlotAvailable_spec hav k hk v (by rw [← hstart, ← hkt]; exact hlk)
              rw [happ]
              exact this
          · rw [if_neg (by simpa using hcov)]
            rw [add_zero]
            exact hbnd t
        exact ih _ res _ usedF (fun a' ha' => hp a' (List.mem_cons_of_mem a ha'))
          hinv' hbnd' h

/-! ### Claim C1 -/

/-- C1 (amended): for every production schedule with whole-hour timestamps
and every appliance list in which each `power_rating` is at most the 10 kW
slot capacity, after `optimize_schedule` completes without an exception the
cumulative power recorded in the `used_slots` map never exceeds 10 kW at any
timestamp, and for every whole hour the summed `power_rating` of the
returned items whose `[start_time, end_time)` window covers that hour is at
most 10 kW. -/
theorem C1_capacity_invariant (bl rt : ℚ) (apps : List Appliance) (ps : List (ℚ × ℚ))
    (hp : ∀ a ∈ apps, a.power_rating ≤ 10)
    (hint : ∀ pt ∈ ps, (pt.1 : ℚ).den = 1) :
    ∀ items used, optimizeScheduleFull bl rt apps ps = .ok (items, used) →
      (∀ t : ℚ, lookupSlotD used t ≤ 10) ∧
      (∀ t : ℚ, t.den = 1 → hourLoad items t ≤ 10) := by
  intro items used h
  replace h : scheduleLoop bl rt ps (sortedAppliances apps) [] [] = .ok (items, used) := h
  have hp' : ∀ a ∈ sortedAppliances apps, a.power_rating ≤ 10 := by
    intro a ha
    exact hp a (by rwa [sortedAppliances, List.mem_mergeSort] at ha)
  have hinv0 : ∀ t : ℚ, lookupSlotD [] t = slotLoad [] t := fun t => rfl
  have hbnd0 : ∀ t : ℚ, lookupSlotD ([] : UsedSlots) t ≤ 10 := by
    intro t
    show (0 : ℚ) ≤ 10
    norm_num
  obtain ⟨hinvF, hbndF⟩ :=
    scheduleLoop_invariant bl rt ps (sortedAppliances apps) [] items [] used hp' hinv0 hbnd0 h
  refine ⟨hbndF, ?_⟩
  intro t ht
  have halign : ∀ it ∈ items, it.start_time.den = 1 ∧
      ∃ d : ℤ, 1 ≤ d ∧ it.end_time = it.start_time + (d : ℚ) := by
    intro it hit
    rcases scheduleLoop_ok_items bl rt ps (sortedAppliances apps) [] items [] used h it hit with
      hin | ⟨a, _, u, hu⟩
    · simp at hin
    · obtain ⟨hden, -, hd1, hend⟩ := item_aligned hu hint
      exact ⟨hden, pyInt a.duration, hd1, hend⟩
  rw [hourLoad_eq_slotLoad halign ht, ← hinvF t]
  exact hbndF t

/-- Witness for C1: two 6 kW appliances on a two-hour schedule; applying the
theorem at this input bounds the committed and per-hour loads by 10 kW. -/
theorem C1_capacity_invariant_witness :
    optimizeScheduleFull 2 (12/100)
        [⟨"a", 6, 1, 3, Priority.HIGH⟩, ⟨"b", 5, 1, 2, Priority.LOW⟩] [(0, 5), (1, 5)] =
      .ok ([⟨⟨"a", 6, 1, 3, Priority.HIGH⟩, 0, 1, 1/2, 3, 9/25⟩,
            ⟨⟨"b", 5, 1, 2, Priority.LOW⟩, 1, 2, 3/5, 2, 9/25⟩],
           [(0, 6), (1, 5)]) ∧
    lookupSlotD [(0, 6), (1, 5)] 0 ≤ 10 ∧
    hourLoad [⟨⟨"a", 6, 1, 3, Priority.HIGH⟩, 0, 1, 1/2, 3, 9/25⟩,
              ⟨⟨"b", 5, 1, 2, Priority.LOW⟩, 1, 2, 3/5, 2, 9/25⟩] 0 ≤ 10 := by
  have hok : optimizeScheduleFull 2 (12/100)
      [⟨"a", 6, 1, 3, Priority.HIGH⟩, ⟨"b", 5, 1, 2, Priority.LOW⟩] [(0, 5), (1, 5)] =
      .ok ([⟨⟨"a", 6, 1, 3, Priority.HIGH⟩, 0, 1, 1/2, 3, 9/25⟩,
            ⟨⟨"b", 5, 1, 2, Priority.LOW⟩, 1, 2, 3/5, 2, 9/25⟩],
           [(0, 6), (1, 5)]) := by
    norm_num [optimizeScheduleFull, scheduleLoop, sortedAppliances, List.mergeSort, appLE,
      Priority.value, findBestTimeSlot, findBestAux, isSlotAvailable, calcSlotScore, scoreLoop,
      findFirstIdx, createScheduleItem, solarGridEnergies, energyLoop, markSlotsUsed, markLoop,
      addPower, lookupSlot, lookupSlotD, pyInt, hourOf, List.range_succ]
  have h := C1_capacity_invariant 2 (12/100)
    [⟨"a", 6, 1, 3, Priority.HIGH⟩, ⟨"b", 5, 1, 2, Priority.LOW⟩] [(0, 5), (1, 5)]
    (by intro a ha; fin_cases ha <;> norm_num)
    (by intro pt hpt; fin_cases hpt <;> norm_num)
    _ _ hok
  exact ⟨hok, h.1 0, h.2 0 rfl⟩

/-- Counterexample to C1 as stated: a single 11 kW appliance is accepted
(hours absent from `used_slots` are never capacity-checked), so the hour it
covers carries 11 kW > 10 kW. -/
theorem C1_counterexample :
    optimizeSchedule 2 (12/100) [⟨"ev", 11, 1, 5, Priority.MEDIUM⟩] [(0, 5)] =
      .ok [⟨⟨"ev", 11, 1, 5, Priority.MEDIUM⟩, 0, 1, 3/11, 8, 9/25⟩] ∧
    10 < hourLoad [⟨⟨"ev", 11, 1, 5, Priority.MEDIUM⟩, 0, 1, 3/11, 8, 9/25⟩] 0 := by
  constructor
  · norm_num [optimizeSchedule, optimizeScheduleFull, scheduleLoop, sortedAppliances,
      List.mergeSort, findBestTimeSlot, findBestAux, isSlotAvailable, calcSlotScore, scoreLoop,
      findFirstIdx, createScheduleItem, solarGridEnergies, energyLoop, markSlotsUsed, markLoop,
      addPower, lookupSlot, lookupSlotD, pyInt, hourOf, List.range_succ, Except.map]
  · norm_num [hourLoad]

/-! ### Per-item accounting facts for successful runs -/

theorem optimize_ok_item_facts (bl rt : ℚ) {apps : List Appliance} {ps : List (ℚ × ℚ)}
    {items : List ScheduleItem} (hp : ∀ a ∈ apps, 0 < a.power_rating)
    (h : optimizeSchedule bl rt apps ps = .ok items) :
    ∀ it ∈ items,
      itemSolarEnergy it + it.grid_usage =
        it.appliance.power_rating * ((pyInt it.appliance.duration : ℤ) : ℚ) ∧
      it.cost_savings = itemSolarEnergy it * rt := by
  intro it hit
  have hfull : ∃ used, optimizeScheduleFull bl rt apps ps = .ok (items, used) := by
    unfold optimizeSchedule at h
    cases hf : optimizeScheduleFull bl rt apps ps with
    | error e => rw [hf] at h; simp [Except.map] at h
    | ok p =>
      rw [hf] at h
      obtain ⟨its, u⟩ := p
      simp only [Except.map, Except.ok.injEq] at h
      exact ⟨u, by rw [h]⟩
  obtain ⟨used, hfu⟩ := hfull
  replace hfu : scheduleLoop bl rt ps (sortedAppliances apps) [] [] = .ok (items, used) := hfu
  rcases scheduleLoop_ok_items bl rt ps (sortedAppliances apps) [] items [] used hfu it hit with
    hin | ⟨a, ha, u, hu⟩
  · simp at hin
  · have hd := findBestTimeSlot_ok_duration hu
    obtain ⟨i, pt, hidx, hbound, -, hcreate⟩ := findBestTimeSlot_ok_some hu
    have hpa : 0 < a.power_rating :=
      hp a (by rwa [sortedAppliances, List.mem_mergeSort] at ha)
    have hident := createItem_energy_identity bl rt a u hpa hd hidx hbound
    have happ : it.appliance = a := by
      rw [hcreate]
      exact (createScheduleItem_fields bl rt a pt.1 (pyInt a.duration) ps u).1
    rw [happ, hcreate]
    exact ⟨hident.1, hident.2⟩

/-! ### Claim C2 -/

/-- C2 (amended): for every appliance with positive power rating that
`optimize_schedule` places, `solar_coverage = solar_energy / total_energy`
with `total_energy = power_rating * duration` (fractional duration) and
`cost_savings = solar_energy * 0.12`, but `grid_usage` equals
`power_rating * int(duration) - solar_energy` — the energy accounted over
the truncated slot count, not `total_energy - solar_energy`. -/
theorem C2_item_metrics (bl : ℚ) (apps : List Appliance) (ps : List (ℚ × ℚ))
    (hp : ∀ a ∈ apps, 0 < a.power_rating) :
    ∀ items, optimizeSchedule bl (12/100) apps ps = .ok items →
      ∀ it ∈ items,
        it.cost_savings = itemSolarEnergy it * (12/100) ∧
        it.grid_usage =
          it.appliance.power_rating * ((pyInt it.appliance.duration : ℤ) : ℚ) -
            itemSolarEnergy it := by
  intro items h it hit
  obtain ⟨hsum, hcost⟩ := optimize_ok_item_facts bl (12/100) hp h it hit
  exact ⟨hcost, by linarith⟩

/-- Witness for C2: a 6 kW, 1 h appliance placed on a one-hour schedule;
its stored savings and grid usage satisfy the amended formulas. -/
theorem C2_item_metrics_witness :
    optimizeSchedule 2 (12/100) [⟨"a", 6, 1, 3, Priority.HIGH⟩] [(0, 5)] =
      .ok [⟨⟨"a", 6, 1, 3, Priority.HIGH⟩, 0, 1, 1/2, 3, 9/25⟩] ∧
    (⟨⟨"a", 6, 1, 3, Priority.HIGH⟩, 0, 1, 1/2, 3, 9/25⟩ : ScheduleItem).cost_savings =
      itemSolarEnergy ⟨⟨"a", 6, 1, 3, Priority.HIGH⟩, 0, 1, 1/2, 3, 9/25⟩ * (12/100) ∧
    (⟨⟨"a", 6, 1, 3, Priority.HIGH⟩, 0, 1, 1/2, 3, 9/25⟩ : ScheduleItem).grid_usage =
      (⟨⟨"a", 6, 1, 3, Priority.HIGH⟩, 0, 1, 1/2, 3, 9/25⟩ : ScheduleItem).appliance.power_rating *
        ((pyInt (⟨"a", 6, 1, 3, Priority.HIGH⟩ : Appliance).duration : ℤ) : ℚ) -
        itemSolarEnergy ⟨⟨"a", 6, 1, 3, Priority.HIGH⟩, 0, 1, 1/2, 3, 9/25⟩ := by
  have hok : optimizeSchedule 2 (12/100) [⟨"a", 6, 1, 3, Priority.HIGH⟩] [(0, 5)] =
      .ok [⟨⟨"a", 6, 1, 3, Priority.HIGH⟩, 0, 1, 1/2, 3, 9/25⟩] := by
    norm_num [optimizeSchedule, optimizeScheduleFull, scheduleLoop, sortedAppliances,
      List.mergeSort, findBestTimeSlot, findBestAux, isSlotAvailable, calcSlotScore, scoreLoop,
      findFirstIdx, createScheduleItem, solarGridEnergies, energyLoop, markSlotsUsed, markLoop,
      addPower, lookupSlot, lookupSlotD, pyInt, hourOf, List.range_succ, Except.map]
  have h := C2_item_metrics 2 [⟨"a", 6, 1, 3, Priority.HIGH⟩] [(0, 5)]
    (by intro a ha; fin_cases ha <;> norm_num) _ hok
    ⟨⟨"a", 6, 1, 3, Priority.HIGH⟩, 0, 1, 1/2, 3, 9/25⟩ (by simp)
  exact ⟨hok, h.1, h.2⟩

/-- Counterexample to C2 as stated: duration 1.5 h is truncated to one slot,
so the stored grid usage is `power * 1 - solar = 1`, not
`total_energy - solar = 1.5`; and for a negative power rating the guarded
coverage is 0, so `cost_savings` is not `solar_energy` (reconstructed from
the coverage) times the rate. -/
theorem C2_counterexample :
    (optimizeSchedule 2 (12/100) [⟨"w", 1, 3/2, 0, Priority.MEDIUM⟩] [(0, 2)] =
      .ok [⟨⟨"w", 1, 3/2, 0, Priority.MEDIUM⟩, 0, 1, 0, 1, 0⟩] ∧
    ¬ ((⟨⟨"w", 1, 3/2, 0, Priority.MEDIUM⟩, 0, 1, 0, 1, 0⟩ : ScheduleItem).grid_usage =
        (1 : ℚ) * (3/2) -
          itemSolarEnergy ⟨⟨"w", 1, 3/2, 0, Priority.MEDIUM⟩, 0, 1, 0, 1, 0⟩)) ∧
    (optimizeSchedule 2 (12/100) [⟨"n2", -1, 1, 0, Priority.MEDIUM⟩] [(0, 2)] =
      .ok [⟨⟨"n2", -1, 1, 0, Priority.MEDIUM⟩, 0, 1, 0, 0, -3/25⟩] ∧
    ¬ ((⟨⟨"n2", -1, 1, 0, Priority.MEDIUM⟩, 0, 1, 0, 0, -3/25⟩ : ScheduleItem).cost_savings =
        itemSolarEnergy ⟨⟨"n2", -1, 1, 0, Priority.MEDIUM⟩, 0, 1, 0, 0, -3/25⟩ * (12/100))) := by
  refine ⟨⟨?_, ?_⟩, ?_, ?_⟩
  · norm_num [optimizeSchedule, optimizeScheduleFull, scheduleLoop, sortedAppliances,
      List.mergeSort, findBestTimeSlot, findBestAux, isSlotAvailable, calcSlotScore, scoreLoop,
      findFirstIdx, createScheduleItem, solarGridEnergies, energyLoop, markSlotsUsed, markLoop,
      addPower, lookupSlot, lookupSlotD, pyInt, hourOf, List.range_succ, Except.map]
  · norm_num [itemSolarEnergy]
  · norm_num [optimizeSchedule, optimizeScheduleFull, scheduleLoop, sortedAppliances,
      List.mergeSort, findBestTimeSlot, findBestAux, isSlotAvailable, calcSlotScore, scoreLoop,
      findFirstIdx, createScheduleItem, solarGridEnergies, energyLoop, markSlotsUsed, markLoop,
      addPower, lookupSlot, lookupSlotD, pyInt, hourOf, List.range_succ, Except.map]
  · norm_num [itemSolarEnergy]

/-! ### Claim C10 -/

/-- C10 (amended): for appliances with positive power rating, every returned
item satisfies `solar_coverage * (power_rating * duration) + grid_usage =
power_rating * int(duration)`: solar and grid energy account exactly for the
truncated slot count. -/
theorem C10_energy_identity (bl rt : ℚ) (apps : List Appliance) (ps : List (ℚ × ℚ))
    (hp : ∀ a ∈ apps, 0 < a.power_rating) :
    ∀ items, optimizeSchedule bl rt apps ps = .ok items →
      ∀ it ∈ items,
        it.solar_coverage * (it.appliance.power_rating * it.appliance.duration) +
          it.grid_usage =
          it.appliance.power_rating * ((pyInt it.appliance.duration : ℤ) : ℚ) := by
  intro items h it hit
  exact (optimize_ok_item_facts bl rt hp h it hit).1

/-- Witness for C10: the placed 6 kW, 1 h appliance satisfies
`coverage * total + grid = power * int(duration)` (3 + 3 = 6). -/
theorem C10_energy_identity_witness :
    optimizeSchedule 3 (12/100) [⟨"c", 6, 1, 3, Priority.HIGH⟩] [(0, 5)] =
      .ok [⟨⟨"c", 6, 1, 3, Priority.HIGH⟩, 0, 1, 1/3, 4, 6/25⟩] ∧
    (⟨⟨"c", 6, 1, 3, Priority.HIGH⟩, 0, 1, 1/3, 4, 6/25⟩ : ScheduleItem).solar_coverage *
        ((6 : ℚ) * 1) +
      (⟨⟨"c", 6, 1, 3, Priority.HIGH⟩, 0, 1, 1/3, 4, 6/25⟩ : ScheduleItem).grid_usage =
      (6 : ℚ) * ((pyInt (1 : ℚ) : ℤ) : ℚ) := by
  have hok : optimizeSchedule 3 (12/100) [⟨"c", 6, 1, 3, Priority.HIGH⟩] [(0, 5)] =
      .ok [⟨⟨"c", 6, 1, 3, Priority.HIGH⟩, 0, 1, 1/3, 4, 6/25⟩] := by
    norm_num [optimizeSchedule, optimizeScheduleFull, scheduleLoop, sortedAppliances,
      List.mergeSort, findBestTimeSlot, findBestAux, isSlotAvailable, calcSlotScore, scoreLoop,
      findFirstIdx, createScheduleItem, solarGridEnergies, energyLoop, markSlotsUsed, markLoop,
      addPower, lookupSlot, lookupSlotD, pyInt, hourOf, List.range_succ, Except.map]
  have h := C10_energy_identity 3 (12/100) [⟨"c", 6, 1, 3, Priority.HIGH⟩] [(0, 5)]
    (by intro a ha; fin_cases ha <;> norm_num) _ hok
    ⟨⟨"c", 6, 1, 3, Priority.HIGH⟩, 0, 1, 1/3, 4, 6/25⟩ (by simp)
  exact ⟨hok, h⟩

/-- Counterexample to C10 as stated: a negative-power appliance is placed
with coverage 0 and grid usage 0, so the left side is 0 while
`power * int(duration)` is −1. -/
theorem C10_counterexample :
    optimizeSchedule 2 (12/100) [⟨"n", -1, 1, 0, Priority.MEDIUM⟩] [(0, 2)] =
      .ok [⟨⟨"n", -1, 1, 0, Priority.MEDIUM⟩, 0, 1, 0, 0, -3/25⟩] ∧
    ¬ ((⟨⟨"n", -1, 1, 0, Priority.MEDIUM⟩, 0, 1, 0, 0, -3/25⟩ : ScheduleItem).solar_coverage *
          ((-1 : ℚ) * 1) +
        (⟨⟨"n", -1, 1, 0, Priority.MEDIUM⟩, 0, 1, 0, 0, -3/25⟩ : ScheduleItem).grid_usage =
        (-1 : ℚ) * ((pyInt (1 : ℚ) : ℤ) : ℚ)) := by
  constructor
  · norm_num [optimizeSchedule, optimizeScheduleFull, scheduleLoop, sortedAppliances,
      List.mergeSort, findBestTimeSlot, findBestAux, isSlotAvailable, calcSlotScore, scoreLoop,
      findFirstIdx, createScheduleItem, solarGridEnergies, energyLoop, markSlotsUsed, markLoop,
      addPower, lookupSlot, lookupSlotD, pyInt, hourOf, List.range_succ, Except.map]
  · norm_num [pyInt]

theorem optimize_ok_origin {bl rt : ℚ} {apps : List Appliance} {ps : List (ℚ × ℚ)}
    {items : List ScheduleItem} (h : optimizeSchedule bl rt apps ps = .ok items) :
    ∀ it ∈ items, ∃ a ∈ apps, ∃ u : UsedSlots,
      findBestTimeSlot bl rt a ps u = .ok (some it) := by
  intro it hit
  have hfull : ∃ used, optimizeScheduleFull bl rt apps ps = .ok (items, used) := by
    unfold optimizeSchedule at h
    cases hf : optimizeScheduleFull bl rt apps ps with
    | error e => rw [hf] at h; simp [Except.map] at h
    | ok p =>
      rw [hf] at h
      obtain ⟨its, u⟩ := p
      simp only [Except.map, Except.ok.injEq] at h
      exact ⟨u, by rw [h]⟩
  obtain ⟨used, hfu⟩ := hfull
  replace hfu : scheduleLoop bl rt ps (sortedAppliances apps) [] [] = .ok (items, used) := hfu
  rcases scheduleLoop_ok_items bl rt ps (sortedAppliances apps) [] items [] used hfu it hit with
    hin | ⟨a, ha, u, hu⟩
  · simp at hin
  · exact ⟨a, by rwa [sortedAppliances, List.mem_mergeSort] at ha, u, hu⟩

/-! ### Claim C6 -/

/-- C6: for appliances with positive power rating and positive duration,
every `ScheduleItem` returned by `optimize_schedule` has its
`solar_coverage` in the closed interval `[0, 1]`. -/
theorem C6_coverage_in_unit_interval (bl rt : ℚ) (apps : List Appliance) (ps : List (ℚ × ℚ))
    (hp : ∀ a ∈ apps, 0 < a.power_rating ∧ 0 < a.duration) :
    ∀ items, optimizeSchedule bl rt apps ps = .ok items →
      ∀ it ∈ items, 0 ≤ it.solar_coverage ∧ it.solar_coverage ≤ 1 := by
  intro items h it hit
  obtain ⟨a, ha, u, hu⟩ := optimize_ok_origin h it hit
  obtain ⟨i, pt, hidx, hbound, -, hcreate⟩ := findBestTimeSlot_ok_some hu
  obtain ⟨hpa, hda⟩ := hp a ha
  rw [hcreate]
  exact createItem_coverage_bounds bl rt a pt.1 ps u hpa hda

/-- Witness for C6: the placed appliance's coverage 1/2 lies in `[0, 1]`. -/
theorem C6_coverage_in_unit_interval_witness :
    optimizeSchedule 2 (12/100) [⟨"d", 6, 1, 3, Priority.HIGH⟩] [(0, 5)] =
      .ok [⟨⟨"d", 6, 1, 3, Priority.HIGH⟩, 0, 1, 1/2, 3, 9/25⟩] ∧
    0 ≤ (⟨⟨"d", 6, 1, 3, Priority.HIGH⟩, 0, 1, 1/2, 3, 9/25⟩ : ScheduleItem).solar_coverage ∧
    (⟨⟨"d", 6, 1, 3, Priority.HIGH⟩, 0, 1, 1/2, 3, 9/25⟩ : ScheduleItem).solar_coverage ≤ 1 := by
  have hok : optimizeSchedule 2 (12/100) [⟨"d", 6, 1, 3, Priority.HIGH⟩] [(0, 5)] =
      .ok [⟨⟨"d", 6, 1, 3, Priority.HIGH⟩, 0, 1, 1/2, 3, 9/25⟩] := by
    norm_num [optimizeSchedule, optimizeScheduleFull, scheduleLoop, sortedAppliances,
      List.mergeSort, findBestTimeSlot, findBestAux, isSlotAvailable, calcSlotScore, scoreLoop,
      findFirstIdx, createScheduleItem, solarGridEnergies, energyLoop, markSlotsUsed, markLoop,
      addPower, lookupSlot, lookupSlotD, pyInt, hourOf, List.range_succ, Except.map]
  have h := C6_coverage_in_unit_interval 2 (12/100) [⟨"d", 6, 1, 3, Priority.HIGH⟩] [(0, 5)]
    (by intro a ha; fin_cases ha; exact ⟨by norm_num, by norm_num⟩) _ hok
    ⟨⟨"d", 6, 1, 3, Priority.HIGH⟩, 0, 1, 1/2, 3, 9/25⟩ (by simp)
  exact ⟨hok, h.1, h.2⟩

/-! ### No-exception machinery -/

theorem scoreLoop_ok (bl : ℚ) (a : Appliance) (ps : List (ℚ × ℚ)) (used : UsedSlots)
    (i : ℕ) (hne : a.power_rating ≠ 0) :
    ∀ (js : List ℕ) (cur acc : ℚ), ∃ sc, scoreLoop bl a ps used i js cur acc = .ok sc ∧
      (0 < a.power_rating → acc ≤ sc) := by
  intro js
  induction js with
  | nil => intro cur acc; exact ⟨acc, rfl, fun _ => le_refl acc⟩
  | cons j js ih =>
    intro cur acc
    by_cases hj : i + j < ps.length
    · simp only [scoreLoop, if_pos hj, if_neg hne]
      obtain ⟨sc, hsc, hmono⟩ := ih (cur + 1)
        (acc + min 1 (max 0 ((ps.getD (i + j) (0, 0)).2 - bl - lookupSlotD used cur) /
            a.power_rating) * 100 +
          if 10 ≤ hourOf cur ∧ hourOf cur ≤ 16 ∧ 7 < a.flexibility then 20 else 0)
      refine ⟨sc, hsc, fun hp => ?_⟩
      refine le_trans ?_ (hmono hp)
      have hcov : 0 ≤ min 1 (max 0 ((ps.getD (i + j) (0, 0)).2 - bl - lookupSlotD used cur) /
          a.power_rating) :=
        le_min zero_le_one (div_nonneg (le_max_left 0 _) hp.le)
      have hbonus : (0 : ℚ) ≤
          if 10 ≤ hourOf cur ∧ hourOf cur ≤ 16 ∧ 7 < a.flexibility then 20 else 0 := by
        split <;> norm_num
      nlinarith
    · simp only [scoreLoop, if_neg hj]
      exact ih cur acc

theorem calcSlotScore_ok (bl : ℚ) (a : Appliance) (s : ℚ) (d : ℤ) (ps : List (ℚ × ℚ))
    (used : UsedSlots) (hne : a.power_rating ≠ 0) :
    ∃ sc, calcSlotScore bl a s d ps used = .ok sc ∧ (0 < a.power_rating → 0 ≤ sc) := by
  unfold calcSlotScore
  cases h : findFirstIdx ps s with
  | none => exact ⟨0, rfl, fun _ => le_refl 0⟩
  | some i =>
    obtain ⟨sc, hsc, hmono⟩ := scoreLoop_ok bl a ps used i hne (List.range d.toNat) s 0
    exact ⟨sc, hsc, hmono⟩

theorem findBestAux_ok (bl rt : ℚ) (a : Appliance) (ps : List (ℚ × ℚ)) (used : UsedSlots)
    (hne : a.power_rating ≠ 0) :
    ∀ (idxs : List ℕ), (∀ i ∈ idxs, i < ps.length) →
      ∀ (bs : ℚ) (best : Option ScheduleItem),
        ∃ res, findBestAux bl rt a ps used idxs bs best = .ok res ∧
          (best.isSome = true → res.isSome = true) := by
  intro idxs
  induction idxs with
  | nil => intro _ bs best; exact ⟨best, rfl, fun h => h⟩
  | cons i idxs ih =>
    intro hb bs best
    have hi : i < ps.length := hb i (List.mem_cons_self i idxs)
    have hpt : ps[i]? = some ps[i] := List.getElem?_eq_getElem hi
    have hbt : ∀ i' ∈ idxs, i' < ps.length := fun i' hi' => hb i' (List.mem_cons_of_mem i hi')
    simp only [findBestAux, hpt]
    by_cases hav : isSlotAvailable used ps[i].1 (pyInt a.duration) a.power_rating = true
    · rw [if_pos hav]
      obtain ⟨sc, hsc, -⟩ := calcSlotScore_ok bl a ps[i].1 (pyInt a.duration) ps used hne
      rw [hsc]
      simp only []
      by_cases hlt : bs < sc
      · rw [if_pos hlt]
        obtain ⟨res, hres, hsome⟩ := ih hbt sc
          (some (createScheduleItem bl rt a ps[i].1 (pyInt a.duration) ps used))
        exact ⟨res, hres, fun _ => hsome rfl⟩
      · rw [if_neg hlt]
        exact ih hbt bs best
    · rw [if_neg hav]
      exact ih hbt bs best

theorem findBestTimeSlot_ok (bl rt : ℚ) (a : Appliance) (ps : List (ℚ × ℚ))
    (used : UsedSlots) (hne : a.power_rating ≠ 0) (hd : 1 ≤ pyInt a.duration) :
    ∃ res, findBestTimeSlot bl rt a ps used = .ok res := by
  have hb : ∀ i ∈ List.range ((ps.length : ℤ) - pyInt a.duration + 1).toNat, i < ps.length := by
    intro i hi
    have hi' := List.mem_range.mp hi
    have : ((ps.length : ℤ) - pyInt a.duration + 1).toNat ≤ ps.length := by
      rw [Int.toNat_le]
      omega
    omega
  obtain ⟨res, hres, -⟩ := findBestAux_ok bl rt a ps used hne _ hb (-1) none
  exact ⟨res, hres⟩

theorem isSlotAvailable_nil (s : ℚ) (d : ℤ) (p : ℚ) : isSlotAvailable [] s d p = true :=
  List.all_eq_true.mpr fun _ _ => rfl

theorem findBestTimeSlot_some (bl rt : ℚ) (a : Appliance) (ps : List (ℚ × ℚ))
    (hp : 0 < a.power_rating) (hd : 1 ≤ pyInt a.duration)
    (hlen : pyInt a.duration ≤ (ps.length : ℤ)) :
    ∃ it, findBestTimeSlot bl rt a ps [] = .ok (some it) := by
  have hn : ∃ m : ℕ, ((ps.length : ℤ) - pyInt a.duration + 1).toNat = m + 1 := by
    have h1 : (1 : ℤ) ≤ (ps.length : ℤ) - pyInt a.duration + 1 := by omega
    have h2 : 1 ≤ ((ps.length : ℤ) - pyInt a.duration + 1).toNat := by omega
    exact ⟨((ps.length : ℤ) - pyInt a.duration + 1).toNat - 1, by omega⟩
  obtain ⟨m, hm⟩ := hn
  have hlen0 : 0 < ps.length := by omega
  have hb : ∀ i ∈ List.range ((ps.length : ℤ) - pyInt a.duration + 1).toNat, i < ps.length := by
    intro i hi
    have hi' := List.mem_range.mp hi
    have : ((ps.length : ℤ) - pyInt a.duration + 1).toNat ≤ ps.length := by
      rw [Int.toNat_le]
      omega
    omega
  unfold findBestTimeSlot
  rw [hm, List.range_succ_eq_map]
  have hpt : ps[0]? = some ps[0] := List.getElem?_eq_getElem hlen0
  simp only [findBestAux, hpt]
  rw [if_pos (isSlotAvailable_nil ps[0].1 (pyInt a.duration) a.power_rating)]
  obtain ⟨sc, hsc, hnn⟩ :=
    calcSlotScore_ok bl a ps[0].1 (pyInt a.duration) ps ([] : UsedSlots) (ne_of_gt hp)
  rw [hsc]
  simp only []
  rw [if_pos (by linarith [hnn hp] : (-1 : ℚ) < sc)]
  have hbt : ∀ i ∈ List.map (· + 1) (List.range m), i < ps.length := by
    intro i hi
    obtain ⟨i', hi', rfl⟩ := List.mem_map.mp hi
    have := List.mem_range.mp hi'
    have hmem : i' + 1 ∈ List.range ((ps.length : ℤ) - pyInt a.duration + 1).toNat := by
      rw [hm, List.mem_range]
      omega
    exact hb (i' + 1) hmem
  obtain ⟨res, hres, hsome⟩ := findBestAux_ok bl rt a ps [] (ne_of_gt hp) _ hbt sc
    (some (createScheduleItem bl rt a ps[0].1 (pyInt a.duration) ps []))
  have := hsome rfl
  cases res with
  | none => simp at this
  | some it => exact ⟨it, hres⟩

theorem scheduleLoop_ok (bl rt : ℚ) (ps : List (ℚ × ℚ)) :
    ∀ (alist : List Appliance),
      (∀ a ∈ alist, a.power_rating ≠ 0 ∧ 1 ≤ pyInt a.duration) →
      ∀ (items : List ScheduleItem) (used : UsedSlots),
        ∃ res, scheduleLoop bl rt ps alist items used = .ok res := by
  intro alist
  induction alist with
  | nil => intro _ items used; exact ⟨(items, used), rfl⟩
  | cons a alist ih =>
    intro h items used
    obtain ⟨hne, hd⟩ := h a (List.mem_cons_self a alist)
    obtain ⟨res0, hres0⟩ := findBestTimeSlot_ok bl rt a ps used hne hd
    have htail := fun a' ha' => h a' (List.mem_cons_of_mem a ha')
    cases res0 with
    | none =>
      obtain ⟨res, hres⟩ := ih htail items used
      exact ⟨res, by rw [scheduleLoop, hres0]; simpa using hres⟩
    | some item =>
      obtain ⟨res, hres⟩ := ih htail (items ++ [item]) (markSlotsUsed item used)
      exact ⟨res, by rw [scheduleLoop, hres0]; simpa using hres⟩

/-! ### Claim C5 -/

/-- C5 (amended): provided every appliance has a nonzero power rating and a
duration of at least one hour, `optimize_schedule` completes without any
exception: the start-slot scan stays in bounds and the per-hour coverage
fraction never divides by zero. -/
theorem C5_no_exception (bl rt : ℚ) (apps : List Appliance) (ps : List (ℚ × ℚ))
    (h : ∀ a ∈ apps, a.power_rating ≠ 0 ∧ 1 ≤ a.duration) :
    ∃ res, optimizeScheduleFull bl rt apps ps = .ok res := by
  apply scheduleLoop_ok
  intro a ha
  obtain ⟨h1, h2⟩ := h a (by rwa [sortedAppliances, List.mem_mergeSort] at ha)
  exact ⟨h1, pyInt_one_le_of_le h2⟩

/-- Witness for C5: a well-formed appliance list runs to completion. -/
theorem C5_no_exception_witness :
    ∃ res, optimizeScheduleFull 2 (12/100) [⟨"e", 6, 1, 3, Priority.HIGH⟩] [(0, 5)] = .ok res := by
  exact C5_no_exception 2 (12/100) [⟨"e", 6, 1, 3, Priority.HIGH⟩] [(0, 5)]
    (by intro a ha; fin_cases ha; exact ⟨by norm_num, by norm_num⟩)

/-- Counterexample to C5 as stated: an appliance with duration 0.5 h makes
the start-slot scan index past the end of the production list
(`range(len - 0 + 1)` reaches index `len`), raising IndexError; and a zero
power rating raises ZeroDivisionError in the per-hour coverage fraction. -/
theorem C5_counterexample :
    optimizeSchedule 2 (12/100) [⟨"x", 1, 1/2, 0, Priority.MEDIUM⟩] [(0, 1)] = .error () ∧
    optimizeSchedule 2 (12/100) [⟨"z", 0, 1, 0, Priority.MEDIUM⟩] [(0, 5)] = .error () := by
  constructor
  · norm_num [optimizeSchedule, optimizeScheduleFull, scheduleLoop, sortedAppliances,
      List.mergeSort, findBestTimeSlot, findBestAux, isSlotAvailable, calcSlotScore, scoreLoop,
      findFirstIdx, createScheduleItem, solarGridEnergies, energyLoop, lookupSlot, lookupSlotD,
      pyInt, hourOf, List.range_succ, Except.map]
  · norm_num [optimizeSchedule, optimizeScheduleFull, scheduleLoop, sortedAppliances,
      List.mergeSort, findBestTimeSlot, findBestAux, isSlotAvailable, calcSlotScore, scoreLoop,
      findFirstIdx, createScheduleItem, solarGridEnergies, energyLoop, lookupSlot, lookupSlotD,
      pyInt, hourOf, List.range_succ, Except.map]

/-! ### Claim C9 -/

/-- C9: a single appliance with positive power rating (however large, even
above the 10 kW capacity) and duration at least 1 h is always placed when
the production schedule has at least `int(duration)` points: the empty
`used_slots` map constrains nothing and any nonnegative score beats the
initial best score of −1. -/
theorem C9_single_appliance_placed (bl rt : ℚ) (a : Appliance) (ps : List (ℚ × ℚ))
    (hp : 0 < a.power_rating) (hd : 1 ≤ a.duration)
    (hlen : pyInt a.duration ≤ (ps.length : ℤ)) :
    ∃ it, optimizeSchedule bl rt [a] ps = .ok [it] := by
  have hsorted : sortedAppliances [a] = [a] := by simp [sortedAppliances]
  obtain ⟨it, hit⟩ := findBestTimeSlot_some bl rt a ps hp (pyInt_one_le_of_le hd) hlen
  refine ⟨it, ?_⟩
  unfold optimizeSchedule optimizeScheduleFull
  rw [hsorted, scheduleLoop, hit]
  simp only [scheduleLoop]
  simp [Except.map]

/-- Witness for C9: a 25 kW appliance (far above the slot capacity) is
still placed as the only appliance. -/
theorem C9_single_appliance_placed_witness :
    ∃ it, optimizeSchedule 2 (12/100) [⟨"big", 25, 2, 9, Priority.HIGH⟩]
      [(10, 5), (11, 6), (12, 7)] = .ok [it] := by
  exact C9_single_appliance_placed 2 (12/100) ⟨"big", 25, 2, 9, Priority.HIGH⟩
    [(10, 5), (11, 6), (12, 7)] (by norm_num) (by norm_num)
    (by norm_num [pyInt])

/-! ### Claim C7 -/

theorem findBestTimeSlot_empty (bl rt : ℚ) (a : Appliance) (used : UsedSlots)
    (hd : 1 ≤ pyInt a.duration) :
    findBestTimeSlot bl rt a [] used = .ok none := by
  unfold findBestTimeSlot
  have h0 : ((([] : List (ℚ × ℚ)).length : ℤ) - pyInt a.duration + 1).toNat = 0 := by
    simp only [List.length_nil, Nat.cast_zero]
    omega
  rw [h0]
  rfl

theorem scheduleLoop_empty_ps (bl rt : ℚ) :
    ∀ (alist : List Appliance), (∀ a ∈ alist, 1 ≤ pyInt a.duration) →
      ∀ (items : List ScheduleItem) (used : UsedSlots),
        scheduleLoop bl rt [] alist items used = .ok (items, used) := by
  intro alist
  induction alist with
  | nil => intro _ items used; rfl
  | cons a alist ih =>
    intro h items used
    rw [scheduleLoop, findBestTimeSlot_empty bl rt a used (h a (List.mem_cons_self a alist))]
    exact ih (fun a' ha' => h a' (List.mem_cons_of_mem a ha')) items used

/-- C7 (amended): provided every appliance has at least one whole slot of
duration, `optimize_schedule` on an empty production schedule returns the
empty schedule; with an empty appliance list it returns the empty schedule
for any production data; and the summary of an empty schedule is all-zero
(the division by `total_energy = 0` is guarded). -/
theorem C7_empty_inputs (bl rt : ℚ) (apps : List Appliance) (ps : List (ℚ × ℚ))
    (h : ∀ a ∈ apps, 1 ≤ a.duration) :
    optimizeSchedule bl rt apps [] = .ok [] ∧
    optimizeSchedule bl rt [] ps = .ok [] ∧
    getScheduleSummary [] = ⟨0, 0, 0, 0, 0, 0⟩ := by
  refine ⟨?_, ?_, ?_⟩
  · unfold optimizeSchedule optimizeScheduleFull
    rw [scheduleLoop_empty_ps bl rt (sortedAppliances apps) ?_ [] []]
    · rfl
    · intro a ha
      exact pyInt_one_le_of_le (h a (by rwa [sortedAppliances, List.mem_mergeSort] at ha))
  · unfold optimizeSchedule optimizeScheduleFull
    have hnil : sortedAppliances [] = [] := by simp [sortedAppliances]
    rw [hnil]
    rfl
  · simp [getScheduleSummary]

/-- Witness for C7: a 2 h appliance on an empty schedule, and an empty
appliance list on a one-point schedule, both give the empty result. -/
theorem C7_empty_inputs_witness :
    optimizeSchedule 2 (12/100) [⟨"x", 1, 2, 0, Priority.MEDIUM⟩] [] = .ok [] ∧
    optimizeSchedule 2 (12/100) [] [(0, 5)] = .ok [] ∧
    getScheduleSummary [] = ⟨0, 0, 0, 0, 0, 0⟩ := by
  exact C7_empty_inputs 2 (12/100) [⟨"x", 1, 2, 0, Priority.MEDIUM⟩] [(0, 5)]
    (by intro a ha; fin_cases ha <;> norm_num)

/-- Counterexample to C7 as stated: with an appliance of duration 0.5 h even
the empty production schedule raises IndexError (`range(0 - 0 + 1)` probes
index 0 of the empty list), instead of returning an empty schedule. -/
theorem C7_counterexample :
    optimizeSchedule 2 (12/100) [⟨"x", 1, 1/2, 0, Priority.MEDIUM⟩] [] = .error () := by
  norm_num [optimizeSchedule, optimizeScheduleFull, scheduleLoop, sortedAppliances,
    List.mergeSort, findBestTimeSlot, findBestAux, pyInt, List.range_succ, Except.map]

/-! ### Claim C3 -/

theorem appLE_trans : ∀ x y z : Appliance, appLE x y → appLE y z → appLE x z := by
  intro x y z hxy hyz
  simp only [appLE, decide_eq_true_eq] at hxy hyz ⊢
  omega

theorem appLE_total : ∀ x y : Appliance, appLE x y || appLE y x := by
  intro x y
  rw [Bool.or_eq_true]
  simp only [appLE, decide_eq_true_eq]
  omega

/-- C3: `optimize_schedule` attempts appliances ordered with HIGH priority
before MEDIUM before LOW and, within equal priority, lower flexibility
first; in the concrete single-slot scenario with equal flexibility, the
HIGH-priority appliance wins the only feasible slot and the LOW-priority
one is dropped. -/
theorem C3_placement_order :
    (∀ apps : List Appliance, (sortedAppliances apps).Pairwise
      (fun x y => y.priority.value < x.priority.value ∨
        (y.priority.value = x.priority.value ∧ x.flexibility ≤ y.flexibility))) ∧
    optimizeSchedule 2 (12/100)
        [⟨"low", 6, 1, 5, Priority.LOW⟩, ⟨"high", 6, 1, 5, Priority.HIGH⟩] [(8, 5)] =
      .ok [⟨⟨"high", 6, 1, 5, Priority.HIGH⟩, 8, 9, 1/2, 3, 9/25⟩] := by
  constructor
  · intro apps
    have hs := @List.sorted_mergeSort Appliance appLE appLE_trans appLE_total apps
    refine hs.imp ?_
    intro x y hxy
    simpa [appLE, decide_eq_true_eq] using hxy
  · norm_num [optimizeSchedule, optimizeScheduleFull, scheduleLoop, sortedAppliances,
      List.mergeSort, appLE, Priority.value, findBestTimeSlot, findBestAux, isSlotAvailable,
      calcSlotScore, scoreLoop, findFirstIdx, createScheduleItem, solarGridEnergies, energyLoop,
      markSlotsUsed, markLoop, addPower, lookupSlot, lookupSlotD, pyInt, hourOf,
      List.range_succ, Except.map]

/-! ### Claim C4 -/

theorem windowScan_start_mem (minP dur : ℚ) :
    ∀ (l : List (ℚ × ℚ)) (cur : Option ℚ) (len : ℕ) (w : ℚ × ℚ),
      w ∈ windowScan minP dur l cur len →
      w.1 ∈ l.map Prod.fst ∨ ∃ s, cur = some s ∧ w.1 = s := by
  intro l
  induction l with
  | nil => intro cur len w hw; simp [windowScan] at hw
  | cons pt rest ih =>
    intro cur len w hw
    obtain ⟨t, output⟩ := pt
    cases cur with
    | none =>
      simp only [windowScan, Option.getD_none] at hw
      by_cases hq : minP ≤ output
      · rw [if_pos hq] at hw
        by_cases hemit : dur ≤ ((1 : ℕ) : ℚ)
        · rw [if_pos hemit] at hw
          rcases List.mem_cons.mp hw with rfl | hw'
          · simp
          · rcases ih none 0 w hw' with hmem | ⟨s, hs, -⟩
            · exact Or.inl (List.mem_cons_of_mem t hmem)
            · exact absurd hs (by simp)
        · rw [if_neg hemit] at hw
          rcases ih (some t) 1 w hw with hmem | ⟨s, hs, hws⟩
          · exact Or.inl (List.mem_cons_of_mem t hmem)
          · refine Or.inl ?_
            simp only [Option.some.injEq] at hs
            simp [hws, ← hs]
      · rw [if_neg hq] at hw
        rcases ih none 0 w hw with hmem | ⟨s, hs, -⟩
        · exact Or.inl (List.mem_cons_of_mem t hmem)
        · exact absurd hs (by simp)
    | some s0 =>
      simp only [windowScan, Option.getD_some] at hw
      by_cases hq : minP ≤ output
      · rw [if_pos hq] at hw
        by_cases hemit : dur ≤ ((len + 1 : ℕ) : ℚ)
        · rw [if_pos hemit] at hw
          rcases List.mem_cons.mp hw with rfl | hw'
          · exact Or.inr ⟨s0, rfl, rfl⟩
          · rcases ih none 0 w hw' with hmem | ⟨s, hs, -⟩
            · exact Or.inl (List.mem_cons_of_mem t hmem)
            · exact absurd hs (by simp)
        · rw [if_neg hemit] at hw
          rcases ih (some s0) (len + 1) w hw with hmem | ⟨s, hs, hws⟩
          · exact Or.inl (List.mem_cons_of_mem t hmem)
          · refine Or.inr ⟨s0, rfl, ?_⟩
            simp only [Option.some.injEq] at hs
            rw [hws, ← hs]
      · rw [if_neg hq] at hw
        rcases ih none 0 w hw with hmem | ⟨s, hs, -⟩
        · exact Or.inl (List.mem_cons_of_mem t hmem)
        · exact absurd hs (by simp)

theorem windowScan_nonoverlap (minP dur : ℚ) :
    ∀ (l : List (ℚ × ℚ)), (l.map Prod.fst).Pairwise (· < ·) →
      ∀ (cur : Option ℚ) (len : ℕ),
        (windowScan minP dur l cur len).Pairwise (fun w1 w2 => w1.2 < w2.1) := by
  intro l
  induction l with
  | nil => intro _ cur len; simp [windowScan]
  | cons pt rest ih =>
    intro hpair cur len
    obtain ⟨t, output⟩ := pt
    simp only [List.map_cons, List.pairwise_cons] at hpair
    obtain ⟨ht, hrest⟩ := hpair
    cases cur with
    | none =>
      simp only [windowScan, Option.getD_none]
      by_cases hq : minP ≤ output
      · rw [if_pos hq]
        by_cases hemit : dur ≤ ((1 : ℕ) : ℚ)
        · rw [if_pos hemit]
          refine List.Pairwise.cons ?_ (ih hrest none 0)
          intro w hw
          rcases windowScan_start_mem minP dur rest none 0 w hw with hmem | ⟨s, hs, -⟩
          · exact ht w.1 hmem
          · exact absurd hs (by simp)
        · rw [if_neg hemit]
          exact ih hrest _ _
      · rw [if_neg hq]
        exact ih hrest none 0
    | some s0 =>
      simp only [windowScan, Option.getD_some]
      by_cases hq : minP ≤ output
      · rw [if_pos hq]
        by_cases hemit : dur ≤ ((len + 1 : ℕ) : ℚ)
        · rw [if_pos hemit]
          refine List.Pairwise.cons ?_ (ih hrest none 0)
          intro w hw
          rcases windowScan_start_mem minP dur rest none 0 w hw with hmem | ⟨s, hs, -⟩
          · exact ht w.1 hmem
          · exact absurd hs (by simp)
        · rw [if_neg hemit]
          exact ih hrest _ _
      · rw [if_neg hq]
        exact ih hrest none 0

/-- C4: over a strictly time-sorted production schedule the emitted windows
are pairwise non-overlapping (each ends strictly before the next starts),
and on the array `[2,6,6,6,2]` with `min_power = 5`, `duration_hours = 2`
the scan emits exactly one window, over the first two qualifying interior
points. -/
theorem C4_window_scan (ps : List (ℚ × ℚ)) (minPower durationHours : ℚ)
    (hsorted : (ps.map Prod.fst).Pairwise (· < ·)) :
    (getOptimalTimeWindows ps minPower durationHours).Pairwise
      (fun w1 w2 => w1.2 < w2.1) ∧
    getOptimalTimeWindows [(0, 2), (1, 6), (2, 6), (3, 6), (4, 2)] 5 2 = [(1, 2)] := by
  constructor
  · exact windowScan_nonoverlap minPower durationHours ps hsorted none 0
  · norm_num [getOptimalTimeWindows, windowScan]

/-- Witness for C4: the non-overlap conclusion instantiated on the concrete
five-point schedule, whose timestamps are strictly increasing. -/
theorem C4_window_scan_witness :
    (getOptimalTimeWindows [(0, 2), (1, 6), (2, 6), (3, 6), (4, 2)] 5 2).Pairwise
      (fun w1 w2 => w1.2 < w2.1) ∧
    getOptimalTimeWindows [(0, 2), (1, 6), (2, 6), (3, 6), (4, 2)] 5 2 = [(1, 2)] := by
  exact C4_window_scan [(0, 2), (1, 6), (2, 6), (3, 6), (4, 2)] 5 2
    (by norm_num [List.pairwise_cons])

/-! ### Claim C8 -/

/-- C8: a weather sample with zero solar irradiance yields exactly zero
calculated solar output, whatever its temperature, timestamp or the system
configuration. -/
theorem C8_night_zero (cfg : SolarConfig) (w : WeatherData)
    (h : w.solar_irradiance = 0) : calculateSolarOutput cfg w = 0 := by
  unfold calculateSolarOutput
  rw [h]
  push_cast
  simp

/-- Witness for C8: the reference 20-panel system at noon with zero
irradiance produces zero output. -/
theorem C8_night_zero_witness :
    calculateSolarOutput ⟨300, 20, 18/100, 30, 180, 4071/100, -74⟩
      ⟨12, 25, 0, 0, 3, 60⟩ = 0 :=
  C8_night_zero ⟨300, 20, 18/100, 30, 180, 4071/100, -74⟩ ⟨12, 25, 0, 0, 3, 60⟩ rfl
